import Mathlib

/-
  Verification of the storyline editor's record model and XML round-trip logic
  (shallow embedding of src/ootp_storyline_gui.py).

  The embedding models:
  * Python dicts with string keys/values as ordered association lists with
    unique keys, built with `dictSet` (Python `d[k] = v`: replace in place,
    else append); `alookup` is dict lookup, and `lookupLast` is the value a
    key holds after an item sequence is loaded into a dict (last occurrence);
  * `xml.etree.ElementTree` elements as the `XmlElem` tree (an element's
    `attrib` list represents the element's attribute dict, `text` its optional
    text node); serialization/parsing are modelled at the element-tree level,
    since `tree.write`/`ET.parse` compose to the identity on the trees the
    program produces (`ET.indent` only touches whitespace of elements that
    have children, which the parser never reads);
  * Python string comparison (`sort(key=lambda x: x['id'])`, `sorted(...)`) as
    code-point lexicographic comparison `strLe` on the character lists;
  * `list.sort` / `sorted` (stable sorts) as `List.insertionSort`, which is
    also stable, and a stable sort for a fixed total preorder is unique.
-/

namespace OOTP

/-- Code-point lexicographic comparison of character lists: the comparison
Python uses for `str <= str`. -/
def charsLe : List Char → List Char → Bool
  | [], _ => true
  | _ :: _, [] => false
  | a :: as, b :: bs =>
    if a.toNat < b.toNat then true
    else if b.toNat < a.toNat then false
    else charsLe as bs

/-- Python string `<=` (code-point lexicographic). -/
def strLe (a b : String) : Bool := charsLe a.data b.data

theorem charsLe_total : ∀ as bs, charsLe as bs = true ∨ charsLe bs as = true := by
  intro as
  induction as with
  | nil => intro bs; left; rfl
  | cons a as ih =>
    intro bs
    cases bs with
    | nil => right; rfl
    | cons b bs =>
      by_cases h1 : a.toNat < b.toNat
      · left; simp [charsLe, h1]
      · by_cases h2 : b.toNat < a.toNat
        · right; simp [charsLe, h2]
        · rcases ih bs with h | h
          · left; simp [charsLe, h1, h2, h]
          · right; simp [charsLe, h1, h2, h]

theorem charsLe_trans :
    ∀ as bs cs, charsLe as bs = true → charsLe bs cs = true → charsLe as cs = true := by
  intro as
  induction as with
  | nil => intro bs cs _ _; rfl
  | cons a as ih =>
    intro bs cs hab hbc
    cases bs with
    | nil => simp [charsLe] at hab
    | cons b bs =>
      cases cs with
      | nil => simp [charsLe] at hbc
      | cons c cs =>
        simp only [charsLe] at hab hbc ⊢
        by_cases h1 : a.toNat < b.toNat <;> by_cases h2 : b.toNat < a.toNat <;>
          by_cases h3 : b.toNat < c.toNat <;> by_cases h4 : c.toNat < b.toNat <;>
          by_cases h5 : a.toNat < c.toNat <;> by_cases h6 : c.toNat < a.toNat <;>
          simp only [h1, h2, h3, h4, h5, h6, if_pos, if_neg, if_true, if_false,
            eq_self_iff_true] at hab hbc ⊢ <;>
          first
            | rfl
            | assumption
            | omega
            | exact (Bool.false_ne_true hab).elim
            | exact (Bool.false_ne_true hbc).elim
            | exact ih bs cs hab hbc

theorem charsLe_antisymm :
    ∀ as bs, charsLe as bs = true → charsLe bs as = true → as = bs := by
  intro as
  induction as with
  | nil =>
    intro bs _ hba
    cases bs with
    | nil => rfl
    | cons b bs => simp [charsLe] at hba
  | cons a as ih =>
    intro bs hab hba
    cases bs with
    | nil => simp [charsLe] at hab
    | cons b bs =>
      simp only [charsLe] at hab hba
      by_cases h1 : a.toNat < b.toNat <;> by_cases h2 : b.toNat < a.toNat <;>
        simp only [h1, h2, if_true, if_false] at hab hba
      · omega
      · simp at hba
      · simp at hab
      · have heq : a.toNat = b.toNat := by omega
        have hchar : a = b := Char.ext (UInt32.ext heq)
        rw [hchar, ih bs hab hba]

/-- Python string `<=` as a relation (used by the sorting model). -/
def strLeP (a b : String) : Prop := strLe a b = true

instance : DecidableRel strLeP :=
  fun a b => inferInstanceAs (Decidable (strLe a b = true))

instance : IsTrans String strLeP :=
  ⟨fun _ _ _ h1 h2 => charsLe_trans _ _ _ h1 h2⟩

instance : IsTotal String strLeP :=
  ⟨fun a b => charsLe_total a.data b.data⟩

instance : IsAntisymm String strLeP :=
  ⟨fun _ _ h1 h2 => String.ext (charsLe_antisymm _ _ h1 h2)⟩

/-- Python dict assignment `d[k] = v` on an association list: replace the
value at the existing key in place, otherwise append the new pair. -/
def dictSet : List (String × String) → String → String → List (String × String)
  | [], k, v => [(k, v)]
  | kv :: rest, k, v => if kv.1 = k then (k, v) :: rest else kv :: dictSet rest k v

/-- Python dict lookup `d.get(k)` on an association list. -/
def alookup : List (String × String) → String → Option String
  | [], _ => none
  | kv :: rest, k => if kv.1 = k then some kv.2 else alookup rest k

/-- The key list of an association list (the dict's keys, in order). -/
def keys (d : List (String × String)) : List String := d.map Prod.fst

/-- Uniqueness of keys: the invariant every list standing for a Python dict
satisfies. -/
def KeysNodup (d : List (String × String)) : Prop := (keys d).Nodup

theorem keys_cons (kv : String × String) (rest : List (String × String)) :
    keys (kv :: rest) = kv.1 :: keys rest := rfl

theorem keysNodup_cons (kv : String × String) (rest : List (String × String)) :
    KeysNodup (kv :: rest) ↔ kv.1 ∉ keys rest ∧ KeysNodup rest := by
  unfold KeysNodup
  rw [keys_cons, List.nodup_cons]

theorem alookup_dictSet (d : List (String × String)) (k v x : String) :
    alookup (dictSet d k v) x = if x = k then some v else alookup d x := by
  induction d with
  | nil =>
    by_cases h : x = k
    · simp [dictSet, alookup, h]
    · have h2 : ¬ k = x := fun hc => h hc.symm
      simp [dictSet, alookup, h, h2]
  | cons kv rest ih =>
    by_cases h1 : kv.1 = k
    · by_cases h2 : x = k
      · simp [dictSet, alookup, h1, h2]
      · have h3 : ¬ kv.1 = x := by rw [h1]; exact fun hc => h2 hc.symm
        have h4 : ¬ k = x := fun hc => h2 hc.symm
        simp [dictSet, alookup, h1, h2, h3, h4]
    · by_cases h2 : kv.1 = x
      · have h3 : ¬ x = k := by rw [← h2]; exact fun hc => h1 hc
        simp [dictSet, alookup, h1, h2, h3]
      · simp [dictSet, alookup, h1, h2, ih]

theorem alookup_eq_none (d : List (String × String)) (k : String)
    (h : k ∉ keys d) : alookup d k = none := by
  induction d with
  | nil => rfl
  | cons kv rest ih =>
    rw [keys_cons, List.mem_cons, not_or] at h
    have h1 : ¬ kv.1 = k := fun hc => h.1 hc.symm
    simp [alookup, h1, ih h.2]

theorem dictSet_of_not_mem (d : List (String × String)) (k v : String)
    (h : k ∉ keys d) : dictSet d k v = d ++ [(k, v)] := by
  induction d with
  | nil => rfl
  | cons kv rest ih =>
    rw [keys_cons, List.mem_cons, not_or] at h
    have h1 : kv.1 ≠ k := fun hc => h.1 hc.symm
    simp [dictSet, h1, ih h.2]

/-- Building a Python dict by loading an item sequence `l` into the dict
`acc` (a fold of `dictSet`). -/
def dictOf (acc : List (String × String)) (l : List (String × String)) :
    List (String × String) :=
  l.foldl (fun d kv => dictSet d kv.1 kv.2) acc

theorem dictOf_eq_append (l acc : List (String × String))
    (h : (keys acc ++ keys l).Nodup) : dictOf acc l = acc ++ l := by
  induction l generalizing acc with
  | nil => simp [dictOf]
  | cons kv rest ih =>
    have hk : kv.1 ∉ keys acc := by
      intro hc
      rcases List.nodup_append.mp h with ⟨_, _, hdisj⟩
      exact hdisj hc (by rw [keys_cons]; exact List.mem_cons_self _ _)
    have hstep : dictSet acc kv.1 kv.2 = acc ++ [(kv.1, kv.2)] :=
      dictSet_of_not_mem acc kv.1 kv.2 hk
    have hrec : dictOf (acc ++ [(kv.1, kv.2)]) rest = (acc ++ [(kv.1, kv.2)]) ++ rest := by
      apply ih
      have hkeys : keys (acc ++ [(kv.1, kv.2)]) ++ keys rest = keys acc ++ keys (kv :: rest) := by
        simp [keys]
      rw [hkeys]; exact h
    calc dictOf acc (kv :: rest) = dictOf (dictSet acc kv.1 kv.2) rest := rfl
      _ = dictOf (acc ++ [(kv.1, kv.2)]) rest := by rw [hstep]
      _ = (acc ++ [(kv.1, kv.2)]) ++ rest := hrec
      _ = acc ++ kv :: rest := by simp

theorem dictOf_self (l : List (String × String)) (h : KeysNodup l) :
    dictOf [] l = l := by
  have h2 := dictOf_eq_append l [] (by simpa [keys] using h)
  simpa using h2

/-- Value of the last occurrence of a key in an item sequence: the value the
key holds after the sequence is loaded into a Python dict. -/
def lookupLast : List (String × String) → String → Option String
  | [], _ => none
  | kv :: rest, k =>
    match lookupLast rest k with
    | some v => some v
    | none => if kv.1 = k then some kv.2 else none

theorem alookup_dictOf (l acc : List (String × String)) (k : String) :
    alookup (dictOf acc l) k =
      match lookupLast l k with
      | some v => some v
      | none => alookup acc k := by
  induction l generalizing acc with
  | nil => simp [dictOf, lookupLast]
  | cons kv rest ih =>
    have step : dictOf acc (kv :: rest) = dictOf (dictSet acc kv.1 kv.2) rest := rfl
    rw [step, ih]
    cases hrest : lookupLast rest k with
    | some v => simp [lookupLast, hrest]
    | none =>
      rw [alookup_dictSet]
      by_cases hk : kv.1 = k
      · simp [lookupLast, hrest, hk]
      · have hk2 : ¬ k = kv.1 := fun hc => hk hc.symm
        simp [lookupLast, hrest, hk, hk2]

theorem lookupLast_eq_alookup (l : List (String × String)) (k : String)
    (h : KeysNodup l) : lookupLast l k = alookup l k := by
  induction l with
  | nil => rfl
  | cons kv rest ih =>
    rcases (keysNodup_cons kv rest).mp h with ⟨hkn, hrest⟩
    by_cases hk : kv.1 = k
    · have hnone : alookup rest k = none := alookup_eq_none rest k (by rw [← hk]; exact hkn)
      have hnone2 : lookupLast rest k = none := by rw [ih hrest]; exact hnone
      simp [lookupLast, alookup, hk, hnone2]
    · simp only [lookupLast, alookup, hk, if_false, ih hrest]
      cases alookup rest k <;> simp

theorem mem_keys_of_lookupLast (l : List (String × String)) (k v : String)
    (h : lookupLast l k = some v) : k ∈ keys l := by
  induction l with
  | nil => simp [lookupLast] at h
  | cons kv rest ih =>
    rw [keys_cons, List.mem_cons]
    simp only [lookupLast] at h
    cases hr : lookupLast rest k with
    | some w =>
      rw [hr] at h
      simp at h
      exact Or.inr (ih (by rw [hr, h]))
    | none =>
      by_cases hk : kv.1 = k
      · exact Or.inl hk.symm
      · rw [hr, if_neg hk] at h
        exact absurd h (by simp)

theorem lookupLast_filter_val (l : List (String × String)) (k : String)
    (h : KeysNodup l) :
    lookupLast (l.filter (fun kv => kv.2 ≠ "")) k =
      (lookupLast l k).bind (fun v => if v ≠ "" then some v else none) := by
  induction l with
  | nil => simp [lookupLast]
  | cons kv rest ih =>
    rcases (keysNodup_cons kv rest).mp h with ⟨hkn, hrest⟩
    have ihr := ih hrest
    by_cases hv : kv.2 = ""
    · have hfc : List.filter (fun kv => kv.2 ≠ "") (kv :: rest)
          = List.filter (fun kv => kv.2 ≠ "") rest := by
        rw [List.filter_cons, if_neg (by simp [hv])]
      rw [hfc, ihr]
      by_cases hk : kv.1 = k
      · have hnone : lookupLast rest k = none := by
          rw [lookupLast_eq_alookup rest k hrest]
          exact alookup_eq_none rest k (by rw [← hk]; exact hkn)
        simp [lookupLast, hnone, hk, hv]
      · simp only [lookupLast]
        cases lookupLast rest k <;> simp [hk]
    · have hfc : List.filter (fun kv => kv.2 ≠ "") (kv :: rest)
          = kv :: List.filter (fun kv => kv.2 ≠ "") rest := by
        rw [List.filter_cons, if_pos (by simp [hv])]
      rw [hfc]
      simp only [lookupLast, ihr]
      cases hrl : lookupLast rest k with
      | some v =>
        by_cases hv2 : v = ""
        · have hkne : ¬ kv.1 = k := by
            intro hc
            exact hkn (hc ▸ mem_keys_of_lookupLast rest k v hrl)
          simp [hv2, hkne]
        · simp [hv2]
      | none => by_cases hk : kv.1 = k <;> simp [hk, hv]

theorem lookupLast_filter_key (l : List (String × String)) (k : String)
    (p : String × String → Bool) (hp : ∀ kv : String × String, kv.1 = k → p kv = true) :
    lookupLast (l.filter p) k = lookupLast l k := by
  induction l with
  | nil => rfl
  | cons kv rest ih =>
    by_cases hpkv : p kv = true
    · rw [List.filter_cons, if_pos hpkv]
      simp only [lookupLast, ih]
    · rw [List.filter_cons, if_neg hpkv]
      simp only [lookupLast, ih]
      have hne : kv.1 ≠ k := fun hc => hpkv (hp kv hc)
      cases lookupLast rest k <;> simp [hne]

theorem keys_filter_subset (p : String × String → Bool) (l : List (String × String)) :
    ∀ k ∈ keys (l.filter p), k ∈ keys l := by
  intro k hk
  unfold keys at hk ⊢
  rcases List.mem_map.mp hk with ⟨kv, hkv, hfst⟩
  exact List.mem_map.mpr ⟨kv, (List.filter_sublist l).mem hkv, hfst⟩

theorem keysNodup_filter (p : String × String → Bool) (l : List (String × String))
    (h : KeysNodup l) : KeysNodup (l.filter p) := by
  unfold KeysNodup keys at h ⊢
  exact List.Nodup.sublist (List.Sublist.map Prod.fst (List.filter_sublist l)) h

/-- An `xml.etree.ElementTree` element: tag, attribute dict (association list
with unique keys), child elements in document order, and optional text node
(`None` is modelled as `none`; ET never yields `some ""` for absent text). -/
structure XmlElem where
  tag : String
  attrib : List (String × String)
  children : List XmlElem
  text : Option String

/-- `elem.find(tag)`: first direct child with the given tag, or `None`. -/
def XmlElem.find (e : XmlElem) (t : String) : Option XmlElem :=
  e.children.find? (fun c => c.tag == t)

/-- `elem.findall(tag)`: all direct children with the given tag, in order. -/
def XmlElem.findall (e : XmlElem) (t : String) : List XmlElem :=
  e.children.filter (fun c => c.tag == t)

/-- One article of a storyline (`article` dict built in
`parse_storyline_element`, lines 1648-1654): reserved `id`, three
text-bearing fields, and the modifier attribute dict. -/
structure Article where
  id : String
  subject : String
  text : String
  injury_description : String
  modifiers : List (String × String)
deriving DecidableEq

/-- One storyline record (the `storyline` dict). The eleven well-known scalar
attributes (the keys of the `defaults` dict at lines 1617-1629) are named
fields; every other XML attribute copied verbatim from the element lands in
`extra` (the remaining dict entries, in insertion order). `required_data`
holds one attribute dict per DATA_OBJECT child; `articles` the parsed
articles. Starting the eleven fields at `""` and overwriting them from the
element's attributes is equivalent to the source's order (copy all attributes,
then default the missing ones to `""`), because the defaults are exactly `""`.
Attribute names colliding with the two bookkeeping keys `required_data` /
`articles` (which would clobber the Python lists) are not modelled. -/
structure Storyline where
  id : String
  random_frequency : String
  league_year_min : String
  league_year_max : String
  only_in_season : String
  only_in_offseason : String
  only_in_spring : String
  is_minor_league : String
  storyline_happens_only_once : String
  min_usage_interval_days : String
  trigger_events : String
  extra : List (String × String)
  required_data : List (List (String × String))
  articles : List Article
deriving DecidableEq

/-- The keys of the `defaults` dict in `parse_storyline_element`: the eleven
well-known scalar attributes. -/
def elevenNames : List String :=
  ["id", "random_frequency", "league_year_min", "league_year_max",
   "only_in_season", "only_in_offseason", "only_in_spring", "is_minor_league",
   "storyline_happens_only_once", "min_usage_interval_days", "trigger_events"]

/-- The `attributes` list in `create_xml_file` (lines 1757-1762): the ten
scalar attributes written only when non-empty (`id` is handled separately). -/
def tenNames : List String :=
  ["random_frequency", "league_year_min", "league_year_max",
   "only_in_season", "only_in_offseason", "only_in_spring", "is_minor_league",
   "storyline_happens_only_once", "min_usage_interval_days", "trigger_events"]

/-- The record with every scalar attribute `""` and no participants, articles
or extra attributes (the state of the `storyline` dict after defaults alone). -/
def emptyStoryline : Storyline :=
  { id := "", random_frequency := "", league_year_min := "", league_year_max := ""
    only_in_season := "", only_in_offseason := "", only_in_spring := ""
    is_minor_league := "", storyline_happens_only_once := ""
    min_usage_interval_days := "", trigger_events := ""
    extra := [], required_data := [], articles := [] }

/-- `storyline[k] = v` for a scalar attribute: one step of the loop
`for attr_name, attr_value in elem.attrib.items(): storyline[attr_name] = attr_value`. -/
def Storyline.setField (s : Storyline) (k v : String) : Storyline :=
  if k = "id" then { s with id := v }
  else if k = "random_frequency" then { s with random_frequency := v }
  else if k = "league_year_min" then { s with league_year_min := v }
  else if k = "league_year_max" then { s with league_year_max := v }
  else if k = "only_in_season" then { s with only_in_season := v }
  else if k = "only_in_offseason" then { s with only_in_offseason := v }
  else if k = "only_in_spring" then { s with only_in_spring := v }
  else if k = "is_minor_league" then { s with is_minor_league := v }
  else if k = "storyline_happens_only_once" then { s with storyline_happens_only_once := v }
  else if k = "min_usage_interval_days" then { s with min_usage_interval_days := v }
  else if k = "trigger_events" then { s with trigger_events := v }
  else { s with extra := dictSet s.extra k v }

/-- `storyline[k]` for a scalar attribute among the eleven well-known names
(`""` on any other name; only used at the eleven names). -/
def Storyline.getScalar (s : Storyline) (k : String) : String :=
  if k = "id" then s.id
  else if k = "random_frequency" then s.random_frequency
  else if k = "league_year_min" then s.league_year_min
  else if k = "league_year_max" then s.league_year_max
  else if k = "only_in_season" then s.only_in_season
  else if k = "only_in_offseason" then s.only_in_offseason
  else if k = "only_in_spring" then s.only_in_spring
  else if k = "is_minor_league" then s.is_minor_league
  else if k = "storyline_happens_only_once" then s.storyline_happens_only_once
  else if k = "min_usage_interval_days" then s.min_usage_interval_days
  else if k = "trigger_events" then s.trigger_events
  else ""

/-- Parse one DATA_OBJECT child: every XML attribute of the element becomes
an entry of the participant's dict (lines 1638-1642). -/
def parseParticipant (e : XmlElem) : List (String × String) :=
  dictOf [] e.attrib

/-- Parse one ARTICLE child (lines 1647-1672): `id` from the reserved
attribute (default `""`), `subject` / `text` / `injury_description` from the
optional nested text-bearing children (absent child or absent text means
`""`, like `elem.text or ''`), and every other attribute as a modifier. -/
def parseArticle (e : XmlElem) : Article :=
  { id := (alookup e.attrib "id").getD ""
    subject :=
      match e.find "SUBJECT" with
      | some c => c.text.getD ""
      | none => ""
    text :=
      match e.find "TEXT" with
      | some c => c.text.getD ""
      | none => ""
    injury_description :=
      match e.find "INJURY_DESCRIPTION" with
      | some c => c.text.getD ""
      | none => ""
    modifiers :=
      e.attrib.foldl (fun m kv => if kv.1 = "id" then m else dictSet m kv.1 kv.2) [] }

/-- `parse_storyline_element` (lines 1605-1674): copy every attribute of the
storyline element into the record, default the missing well-known scalars to
`""`, then parse the optional REQUIRED_DATA and ARTICLES groups. -/
def parse_storyline_element (e : XmlElem) : Storyline :=
  let s := e.attrib.foldl (fun s kv => s.setField kv.1 kv.2) emptyStoryline
  let rd :=
    match e.find "REQUIRED_DATA" with
    | some r => (r.findall "DATA_OBJECT").map parseParticipant
    | none => []
  let arts :=
    match e.find "ARTICLES" with
    | some a => (a.findall "ARTICLE").map parseArticle
    | none => []
  { s with required_data := rd, articles := arts }

/-- The sort `self.storylines.sort(key=lambda x: x['id'])`: a stable sort by
`id` under Python string comparison. (`insertionSort` is stable, like
Python's sort; a stable sort for a fixed total preorder is unique.) -/
def idLe (a b : Storyline) : Prop := strLe a.id b.id = true

instance : DecidableRel idLe :=
  fun a b => inferInstanceAs (Decidable (strLe a.id b.id = true))

def sortById (l : List Storyline) : List Storyline :=
  l.insertionSort idLe

/-- `parse_xml_file` (lines 1584-1600) as a transition on the mutable state
`self.storylines`, taking the parsed document root. The method clears
`self.storylines` to `[]` BEFORE looking for the STORYLINES container; if the
container is missing it raises `ValueError` (the spec's `SchemaError`), with
the state already cleared. On success the parsed records are appended and the
list is sorted by id. (`ET.parse` failures on unparsable files happen before
the state reset and are outside this model, which starts from a parsed tree.) -/
def parse_xml_file (_prev : List Storyline) (root : XmlElem) :
    List Storyline × Except String Unit :=
  let st : List Storyline := []
  match root.find "STORYLINES" with
  | none => (st, Except.error "STORYLINES 태그를 찾을 수 없습니다.")
  | some se =>
      (sortById (st ++ (se.findall "STORYLINE").map parse_storyline_element),
       Except.ok ())

/-- Serialize one participant dict (lines 1770-1774): each entry is written
as an XML attribute only when its value is non-empty; no key is special-cased. -/
def serializeParticipant (d : List (String × String)) : XmlElem :=
  { tag := "DATA_OBJECT"
    attrib := d.foldl (fun a kv => if kv.2 = "" then a else dictSet a kv.1 kv.2) []
    children := []
    text := none }

/-- Serialize one article (lines 1778-1796): `id` always written, each
modifier written only when non-empty, then SUBJECT / TEXT /
INJURY_DESCRIPTION children emitted only for non-empty values. -/
def serializeArticle (a : Article) : XmlElem :=
  { tag := "ARTICLE"
    attrib :=
      a.modifiers.foldl (fun m kv => if kv.2 = "" then m else dictSet m kv.1 kv.2)
        [("id", a.id)]
    children :=
      (if a.subject = "" then []
       else [{ tag := "SUBJECT", attrib := [], children := [], text := some a.subject }])
      ++ (if a.text = "" then []
          else [{ tag := "TEXT", attrib := [], children := [], text := some a.text }])
      ++ (if a.injury_description = "" then []
          else [{ tag := "INJURY_DESCRIPTION", attrib := [], children := [],
                  text := some a.injury_description }])
    text := none }

/-- The ten name/value pairs the serializer's `attributes` loop ranges over,
in loop order. -/
def tenPairs (s : Storyline) : List (String × String) :=
  [("random_frequency", s.random_frequency),
   ("league_year_min", s.league_year_min),
   ("league_year_max", s.league_year_max),
   ("only_in_season", s.only_in_season),
   ("only_in_offseason", s.only_in_offseason),
   ("only_in_spring", s.only_in_spring),
   ("is_minor_league", s.is_minor_league),
   ("storyline_happens_only_once", s.storyline_happens_only_once),
   ("min_usage_interval_days", s.min_usage_interval_days),
   ("trigger_events", s.trigger_events)]

/-- Serialize one storyline (lines 1754-1796): `id` is set unconditionally,
then each of the ten listed attributes only when non-empty (`if storyline[attr]:`);
since the keys are fresh and pairwise distinct, the `elem.set` loop appends
them in loop order, i.e. the attribute dict is `("id", ...)` followed by the
non-empty entries of `tenPairs`. The REQUIRED_DATA and ARTICLES containers
are emitted only when the respective lists are non-empty. Note that the
record's `extra` attributes are never consulted. -/
def serializeStoryline (s : Storyline) : XmlElem :=
  { tag := "STORYLINE"
    attrib := ("id", s.id) :: (tenPairs s).filter (fun kv => kv.2 ≠ "")
    children :=
      (if s.required_data = [] then []
       else [{ tag := "REQUIRED_DATA", attrib := []
               children := s.required_data.map serializeParticipant, text := none }])
      ++ (if s.articles = [] then []
          else [{ tag := "ARTICLES", attrib := []
                  children := s.articles.map serializeArticle, text := none }])
    text := none }

/-- `create_xml_file` (lines 1746-1800) at the element-tree level: the
STORYLINE_DATABASE root with its informational `fileversion` marker and the
STORYLINES container holding one element per record. Indentation and the
file write do not change the tree the parser reads back. -/
def create_xml_file (fileversion : String) (storylines : List Storyline) : XmlElem :=
  { tag := "STORYLINE_DATABASE"
    attrib := [("fileversion", fileversion)]
    children :=
      [{ tag := "STORYLINES", attrib := []
         children := storylines.map serializeStoryline, text := none }]
    text := none }

/-- What one round trip does to a record (proved below): the eleven scalar
fields survive unchanged, attributes outside the eleven are dropped, and
participant / modifier entries with empty values lose their keys. -/
def normalizeStoryline (s : Storyline) : Storyline :=
  { s with
    extra := []
    required_data := s.required_data.map (fun d => d.filter (fun kv => kv.2 ≠ ""))
    articles := s.articles.map (fun a =>
      { a with modifiers := a.modifiers.filter (fun kv => kv.2 ≠ "") }) }

/-- Key uniqueness invariant for records: every participant dict and every
article's modifier dict has unique keys, and no modifier dict uses the
reserved key `id`. Any record built from a parsed document or from the
editor's dialogs (Python dicts throughout) satisfies this. -/
def Article.WF (a : Article) : Prop :=
  KeysNodup a.modifiers ∧ "id" ∉ keys a.modifiers

def Storyline.WF (s : Storyline) : Prop :=
  (∀ d ∈ s.required_data, KeysNodup d) ∧ ∀ a ∈ s.articles, a.WF

instance : DecidablePred KeysNodup := fun d => by
  unfold KeysNodup
  exact List.nodupDecidable _

instance : DecidablePred Article.WF := fun a => by
  unfold Article.WF
  exact inferInstance

instance : DecidablePred Storyline.WF := fun s => by
  unfold Storyline.WF
  exact inferInstance

/-- `set_main_actor` (lines 1040-1056) on the participant list, given the
selected index: first `del data['main_actor']` on every participant that has
the key, then set `'main_actor': '1'` on the selected one (an append, since
the key was just removed everywhere). -/
def set_main_actor (l : List (List (String × String))) (i : Nat) :
    List (List (String × String)) :=
  let cleared := l.map (fun d => d.filter (fun kv => kv.1 ≠ "main_actor"))
  match cleared.get? i with
  | some d => cleared.set i (dictSet d "main_actor" "1")
  | none => cleared

/-- A participant's main-actor flag, as the program reads it
(`data.get('main_actor') == '1'`). -/
def isMainActor (d : List (String × String)) : Bool :=
  alookup d "main_actor" = some "1"

/-- Outcome of `delete_current_article` as surfaced to the user. -/
inductive DeleteResult
  | deleted
  | cancelled
  | warned
deriving DecidableEq

/-- `delete_current_article` (lines 1154-1170) on the current storyline's
article list (the guards on a selected storyline and a selected article index
are assumed to have passed): with more than one article, the confirmation
dialog's answer decides the deletion; otherwise the method shows the warning
"최소 하나의 기사는 있어야 합니다." and deletes nothing. -/
def delete_current_article (articles : List Article) (i : Nat) (confirm : Bool) :
    List Article × DeleteResult :=
  if articles.length > 1 then
    if confirm then (articles.eraseIdx i, DeleteResult.deleted)
    else (articles, DeleteResult.cancelled)
  else (articles, DeleteResult.warned)

/-- ASCII word characters: the characters `\w` matches in the tag pattern.
The model restricts `\w` and `\d` to ASCII (`Char.isDigit` below); on ASCII
input — the game's tag vocabulary — this coincides with Python's
Unicode-aware classes. -/
def isWordChar (c : Char) : Bool := c.isAlphanum || c = '_'

/-- Try to match the regex `(\[%\w+link#)(\d+)(\s*[^\]]*\])` at the head of
the character list, returning (group 1, group 3, remaining suffix) on
success. The greedy `\w+` followed by the literal `link#` matches exactly
when the maximal word-character run after `[%` ends in `link` (with a
non-empty stem) and is immediately followed by `#` — since `#` is not a word
character, backtracking admits no other split. Group 3 spans from the end of
the digits to the first `]` (whitespace cannot match `]`, so the `\s*` /
`[^\]]*` split does not affect the group's extent). -/
def tryMatchTag : List Char → Option (List Char × List Char × List Char)
  | '[' :: '%' :: rest =>
    let run := rest.takeWhile isWordChar
    if 5 ≤ run.length ∧ run.drop (run.length - 4) = ['l', 'i', 'n', 'k'] then
      match rest.drop run.length with
      | '#' :: afterHash =>
        let digits := afterHash.takeWhile Char.isDigit
        if digits = [] then none
        else
          let afterDigits := afterHash.drop digits.length
          let mid := afterDigits.takeWhile (fun c => c != ']')
          match afterDigits.drop mid.length with
          | ']' :: rest2 => some ('[' :: '%' :: (run ++ ['#']), mid ++ [']'], rest2)
          | _ => none
      | _ => none
    else none
  | _ => none

/-- Left-to-right, non-overlapping substitution of every tag match by
group 1 + the new number + group 3 (the `re.sub` call at line 1115). The
fuel argument only drives termination: every match consumes at least one
character, so fuel equal to the list length always suffices. -/
def tagSubAux (newNum : List Char) : Nat → List Char → List Char
  | _, [] => []
  | 0, cs => cs
  | fuel + 1, c :: cs =>
    match tryMatchTag (c :: cs) with
    | some (g1, g3, rest) => g1 ++ newNum ++ g3 ++ tagSubAux newNum fuel rest
    | none => c :: tagSubAux newNum fuel cs

/-- `re.sub(r'(\[%\w+link#)(\d+)(\s*[^\]]*\])', rf'\g<1>{n}\g<3>', s)`. -/
def tagSub (newNum : String) (s : String) : String :=
  String.mk (tagSubAux newNum.data s.data.length s.data)

/-- Whether the tag pattern matches anywhere in the string. -/
def hasTagAux : List Char → Bool
  | [] => false
  | c :: cs => (tryMatchTag (c :: cs)).isSome || hasTagAux cs

def hasTag (s : String) : Bool := hasTagAux s.data

/-- Outcome of `update_tag_numbers` as surfaced to the user: the success
dialog, the "no changeable tag in the selection" dialog, or the "select some
text first" dialog. -/
inductive TagUpdateResult
  | replaced
  | noMatch
  | noSelection
deriving DecidableEq

/-- `update_tag_numbers` (lines 1102-1127) on the selected text: `none`
models the `tk.TclError` raised when no selection exists, `some ""` an empty
selection; otherwise the substitution runs and the selection is replaced only
when the result differs from the original text. Returns the selection's new
content and the reported outcome. -/
def update_tag_numbers (selection : Option String) (newNum : String) :
    Option String × TagUpdateResult :=
  match selection with
  | none => (none, TagUpdateResult.noSelection)
  | some sel =>
    if sel = "" then (some sel, TagUpdateResult.noSelection)
    else
      let updated := tagSub newNum sel
      if updated = sel then (some sel, TagUpdateResult.noMatch)
      else (some updated, TagUpdateResult.replaced)

/-- The parts of the attribute catalog `get_attributes_for_type` consults:
`data_object_attributes['common']` and `data_object_attributes['by_type']`. -/
structure AttributeCatalog where
  common : List String
  by_type : List (String × List String)

/-- `AttributeManager.get_attributes_for_type` (lines 64-72):
`sorted(list(set(common + specific)))`. The Python `set` enumerates in an
unspecified order, which `sorted` then normalizes; `dedup` followed by the
sort produces the same sorted duplicate-free list. -/
def get_attributes_for_type (cat : AttributeCatalog) (obj_type : String) :
    List String :=
  let specific := ((cat.by_type.find? (fun kv => kv.1 == obj_type)).map Prod.snd).getD []
  ((cat.common ++ specific).dedup).insertionSort strLeP

/-! ### Machinery: how the attribute fold of `parse_storyline_element` acts
on the record's components. -/

set_option maxHeartbeats 1000000

theorem setField_id (t : Storyline) (k v : String) :
    (t.setField k v).id = if k = "id" then v else t.id := by
  simp [Storyline.setField, apply_ite (fun s : Storyline => s.id)] <;> split_ifs <;> simp_all

theorem setField_random_frequency (t : Storyline) (k v : String) :
    (t.setField k v).random_frequency =
      if k = "random_frequency" then v else t.random_frequency := by
  simp [Storyline.setField, apply_ite (fun s : Storyline => s.random_frequency)] <;> split_ifs <;> simp_all

theorem setField_league_year_min (t : Storyline) (k v : String) :
    (t.setField k v).league_year_min =
      if k = "league_year_min" then v else t.league_year_min := by
  simp [Storyline.setField, apply_ite (fun s : Storyline => s.league_year_min)] <;> split_ifs <;> simp_all

theorem setField_league_year_max (t : Storyline) (k v : String) :
    (t.setField k v).league_year_max =
      if k = "league_year_max" then v else t.league_year_max := by
  simp [Storyline.setField, apply_ite (fun s : Storyline => s.league_year_max)] <;> split_ifs <;> simp_all

theorem setField_only_in_season (t : Storyline) (k v : String) :
    (t.setField k v).only_in_season =
      if k = "only_in_season" then v else t.only_in_season := by
  simp [Storyline.setField, apply_ite (fun s : Storyline => s.only_in_season)] <;> split_ifs <;> simp_all

theorem setField_only_in_offseason (t : Storyline) (k v : String) :
    (t.setField k v).only_in_offseason =
      if k = "only_in_offseason" then v else t.only_in_offseason := by
  simp [Storyline.setField, apply_ite (fun s : Storyline => s.only_in_offseason)] <;> split_ifs <;> simp_all

theorem setField_only_in_spring (t : Storyline) (k v : String) :
    (t.setField k v).only_in_spring =
      if k = "only_in_spring" then v else t.only_in_spring := by
  simp [Storyline.setField, apply_ite (fun s : Storyline => s.only_in_spring)] <;> split_ifs <;> simp_all

theorem setField_is_minor_league (t : Storyline) (k v : String) :
    (t.setField k v).is_minor_league =
      if k = "is_minor_league" then v else t.is_minor_league := by
  simp [Storyline.setField, apply_ite (fun s : Storyline => s.is_minor_league)] <;> split_ifs <;> simp_all

theorem setField_storyline_happens_only_once (t : Storyline) (k v : String) :
    (t.setField k v).storyline_happens_only_once =
      if k = "storyline_happens_only_once" then v else t.storyline_happens_only_once := by
  simp [Storyline.setField, apply_ite (fun s : Storyline => s.storyline_happens_only_once)] <;> split_ifs <;> simp_all

theorem setField_min_usage_interval_days (t : Storyline) (k v : String) :
    (t.setField k v).min_usage_interval_days =
      if k = "min_usage_interval_days" then v else t.min_usage_interval_days := by
  simp [Storyline.setField, apply_ite (fun s : Storyline => s.min_usage_interval_days)] <;> split_ifs <;> simp_all

theorem setField_trigger_events (t : Storyline) (k v : String) :
    (t.setField k v).trigger_events =
      if k = "trigger_events" then v else t.trigger_events := by
  simp [Storyline.setField, apply_ite (fun s : Storyline => s.trigger_events)] <;> split_ifs <;> simp_all

theorem getScalar_setField (t : Storyline) (k' v k : String) (hk : k ∈ elevenNames) :
    (t.setField k' v).getScalar k = if k' = k then v else t.getScalar k := by
  simp only [elevenNames, List.mem_cons, List.not_mem_nil, or_false] at hk
  rcases hk with rfl | rfl | rfl | rfl | rfl | rfl | rfl | rfl | rfl | rfl | rfl
  · simp [Storyline.getScalar, setField_id]
  · simp [Storyline.getScalar, setField_random_frequency]
  · simp [Storyline.getScalar, setField_league_year_min]
  · simp [Storyline.getScalar, setField_league_year_max]
  · simp [Storyline.getScalar, setField_only_in_season]
  · simp [Storyline.getScalar, setField_only_in_offseason]
  · simp [Storyline.getScalar, setField_only_in_spring]
  · simp [Storyline.getScalar, setField_is_minor_league]
  · simp [Storyline.getScalar, setField_storyline_happens_only_once]
  · simp [Storyline.getScalar, setField_min_usage_interval_days]
  · simp [Storyline.getScalar, setField_trigger_events]

theorem extra_setField (t : Storyline) (k v : String) :
    (t.setField k v).extra =
      if k ∈ elevenNames then t.extra else dictSet t.extra k v := by
  by_cases hm : k ∈ elevenNames
  · rw [if_pos hm]
    simp only [elevenNames, List.mem_cons, List.not_mem_nil, or_false] at hm
    rcases hm with rfl | rfl | rfl | rfl | rfl | rfl | rfl | rfl | rfl | rfl | rfl <;>
      simp [Storyline.setField]
  · rw [if_neg hm]
    simp only [elevenNames, List.mem_cons, List.not_mem_nil, or_false, not_or] at hm
    obtain ⟨h1, h2, h3, h4, h5, h6, h7, h8, h9, h10, h11⟩ := hm
    simp [Storyline.setField, h1, h2, h3, h4, h5, h6, h7, h8, h9, h10, h11]

theorem requiredData_setField (t : Storyline) (k v : String) :
    (t.setField k v).required_data = t.required_data := by
  simp [Storyline.setField, apply_ite (fun s : Storyline => s.required_data)] <;> split_ifs <;> simp_all

theorem articles_setField (t : Storyline) (k v : String) :
    (t.setField k v).articles = t.articles := by
  simp [Storyline.setField, apply_ite (fun s : Storyline => s.articles)] <;> split_ifs <;> simp_all

theorem getScalar_foldl (L : List (String × String)) (t : Storyline) (k : String)
    (hk : k ∈ elevenNames) :
    (L.foldl (fun s kv => s.setField kv.1 kv.2) t).getScalar k
      = (lookupLast L k).getD (t.getScalar k) := by
  induction L generalizing t with
  | nil => simp [lookupLast]
  | cons kv rest ih =>
    rw [List.foldl_cons, ih (t.setField kv.1 kv.2), getScalar_setField t kv.1 kv.2 k hk]
    cases hr : lookupLast rest k with
    | some v => simp [lookupLast, hr]
    | none => by_cases hkk : kv.1 = k <;> simp [lookupLast, hr, hkk]

theorem extra_foldl (L : List (String × String)) (t : Storyline) :
    (L.foldl (fun s kv => s.setField kv.1 kv.2) t).extra
      = dictOf t.extra (L.filter (fun kv => kv.1 ∉ elevenNames)) := by
  induction L generalizing t with
  | nil => simp [dictOf]
  | cons kv rest ih =>
    rw [List.foldl_cons, ih (t.setField kv.1 kv.2), extra_setField]
    by_cases hm : kv.1 ∈ elevenNames
    · rw [if_pos hm, List.filter_cons, if_neg (by simp [hm])]
    · rw [if_neg hm, List.filter_cons, if_pos (by simp [hm])]
      rfl

theorem requiredData_foldl (L : List (String × String)) (t : Storyline) :
    (L.foldl (fun s kv => s.setField kv.1 kv.2) t).required_data = t.required_data := by
  induction L generalizing t with
  | nil => rfl
  | cons kv rest ih => rw [List.foldl_cons, ih, requiredData_setField]

theorem articles_foldl (L : List (String × String)) (t : Storyline) :
    (L.foldl (fun s kv => s.setField kv.1 kv.2) t).articles = t.articles := by
  induction L generalizing t with
  | nil => rfl
  | cons kv rest ih => rw [List.foldl_cons, ih, articles_setField]

/-! ### Machinery: the attribute dicts the serializer builds. -/

theorem foldl_dictSet_filter (l acc : List (String × String))
    (h : (keys acc ++ keys l).Nodup) :
    l.foldl (fun a kv => if kv.2 = "" then a else dictSet a kv.1 kv.2) acc
      = acc ++ l.filter (fun kv => kv.2 ≠ "") := by
  induction l generalizing acc with
  | nil => simp
  | cons kv rest ih =>
    have hsub : (keys acc ++ keys rest).Nodup := by
      refine List.Nodup.sublist ?_ h
      rw [keys_cons]
      exact List.Sublist.append_left (List.sublist_cons_self kv.1 (keys rest)) (keys acc)
    by_cases hv : kv.2 = ""
    · rw [List.foldl_cons, if_pos hv, ih acc hsub, List.filter_cons,
        if_neg (by simp [hv])]
    · have hk : kv.1 ∉ keys acc := by
        intro hc
        rcases List.nodup_append.mp h with ⟨_, _, hdisj⟩
        exact hdisj hc (by rw [keys_cons]; exact List.mem_cons_self _ _)
      have hacc : (keys (acc ++ [kv]) ++ keys rest).Nodup := by
        have heq : keys (acc ++ [kv]) ++ keys rest = keys acc ++ keys (kv :: rest) := by
          simp [keys]
        rw [heq]; exact h
      rw [List.foldl_cons, if_neg hv, dictSet_of_not_mem acc kv.1 kv.2 hk,
        ih (acc ++ [kv]) hacc, List.filter_cons, if_pos (by simp [hv])]
      simp

theorem foldl_skipId_eq_dictOf (l acc : List (String × String))
    (h : ∀ kv ∈ l, kv.1 ≠ "id") :
    l.foldl (fun m kv => if kv.1 = "id" then m else dictSet m kv.1 kv.2) acc
      = dictOf acc l := by
  induction l generalizing acc with
  | nil => rfl
  | cons kv rest ih =>
    rw [List.foldl_cons, if_neg (h kv (List.mem_cons_self _ _))]
    exact ih (dictSet acc kv.1 kv.2) (fun kv2 h2 => h kv2 (List.mem_cons_of_mem _ h2))

/-! ### Machinery: what one round trip does to each part of a record. -/

theorem getScalar_update (t : Storyline) (rd : List (List (String × String)))
    (arts : List Article) (k : String) :
    ({ t with required_data := rd, articles := arts } : Storyline).getScalar k
      = t.getScalar k := by
  simp [Storyline.getScalar]

theorem getScalar_empty (k : String) : emptyStoryline.getScalar k = "" := by
  simp [Storyline.getScalar, emptyStoryline]

theorem mem_tenPairs_key (s : Storyline) (kv : String × String) (h : kv ∈ tenPairs s) :
    kv.1 ∈ tenNames := by
  simp only [tenPairs, List.mem_cons, List.not_mem_nil, or_false] at h
  rcases h with rfl | rfl | rfl | rfl | rfl | rfl | rfl | rfl | rfl | rfl <;> simp [tenNames]

theorem tenNames_subset_eleven : ∀ k ∈ tenNames, k ∈ elevenNames := by decide

theorem keysNodup_tenPairs (s : Storyline) : KeysNodup (tenPairs s) := by
  unfold KeysNodup keys
  simp only [tenPairs, List.map_cons, List.map_nil]
  decide

theorem serializeParticipant_attrib (d : List (String × String)) (h : KeysNodup d) :
    (serializeParticipant d).attrib = d.filter (fun kv => kv.2 ≠ "") := by
  have h2 := foldl_dictSet_filter d [] (by simpa [keys] using h)
  simpa [serializeParticipant] using h2

theorem roundtrip_participant (d : List (String × String)) (h : KeysNodup d) :
    parseParticipant (serializeParticipant d) = d.filter (fun kv => kv.2 ≠ "") := by
  unfold parseParticipant
  rw [serializeParticipant_attrib d h]
  exact dictOf_self _ (keysNodup_filter _ d h)

theorem serialized_attrib_keys (s : Storyline) (kv : String × String)
    (h : kv ∈ (serializeStoryline s).attrib) : kv.1 ∈ elevenNames := by
  rcases List.mem_cons.mp h with rfl | h2
  · simp [elevenNames]
  · exact tenNames_subset_eleven _
      (mem_tenPairs_key s kv (List.mem_filter.mp h2).1)

/-- The eleven scalar attributes survive one round trip unchanged: non-empty
values are written and read back, empty ones are omitted and restored to `""`
by the parser defaults (and `id` is written unconditionally). -/
theorem roundtrip_scalar (s : Storyline) (k : String) (hk : k ∈ elevenNames) :
    (parse_storyline_element (serializeStoryline s)).getScalar k = s.getScalar k := by
  have hfold :
      (parse_storyline_element (serializeStoryline s)).getScalar k
        = (lookupLast ((serializeStoryline s).attrib) k).getD "" := by
    simp only [parse_storyline_element]
    rw [getScalar_update, getScalar_foldl _ _ _ hk, getScalar_empty]
  rw [hfold]
  show (lookupLast (("id", s.id) :: (tenPairs s).filter (fun kv => kv.2 ≠ "")) k).getD ""
    = s.getScalar k
  simp only [elevenNames, List.mem_cons, List.not_mem_nil, or_false] at hk
  rcases hk with rfl | rfl | rfl | rfl | rfl | rfl | rfl | rfl | rfl | rfl | rfl
  · have hF : lookupLast ((tenPairs s).filter (fun kv => kv.2 ≠ "")) "id" = none := by
      rw [lookupLast_filter_val _ _ (keysNodup_tenPairs s)]
      have hten : lookupLast (tenPairs s) "id" = none := by simp [tenPairs, lookupLast]
      rw [hten]; rfl
    simp only [lookupLast]
    rw [hF]
    simp [Storyline.getScalar]
  · have hten : lookupLast (tenPairs s) "random_frequency" = some s.random_frequency := by
      simp [tenPairs, lookupLast]
    have hF : lookupLast ((tenPairs s).filter (fun kv => kv.2 ≠ "")) "random_frequency"
        = if s.random_frequency = "" then none else some s.random_frequency := by
      rw [lookupLast_filter_val _ _ (keysNodup_tenPairs s), hten]
      by_cases hv : s.random_frequency = "" <;> simp [hv]
    simp only [lookupLast]
    rw [hF]
    by_cases hv : s.random_frequency = "" <;> simp [hv, Storyline.getScalar]
  · have hten : lookupLast (tenPairs s) "league_year_min" = some s.league_year_min := by
      simp [tenPairs, lookupLast]
    have hF : lookupLast ((tenPairs s).filter (fun kv => kv.2 ≠ "")) "league_year_min"
        = if s.league_year_min = "" then none else some s.league_year_min := by
      rw [lookupLast_filter_val _ _ (keysNodup_tenPairs s), hten]
      by_cases hv : s.league_year_min = "" <;> simp [hv]
    simp only [lookupLast]
    rw [hF]
    by_cases hv : s.league_year_min = "" <;> simp [hv, Storyline.getScalar]
  · have hten : lookupLast (tenPairs s) "league_year_max" = some s.league_year_max := by
      simp [tenPairs, lookupLast]
    have hF : lookupLast ((tenPairs s).filter (fun kv => kv.2 ≠ "")) "league_year_max"
        = if s.league_year_max = "" then none else some s.league_year_max := by
      rw [lookupLast_filter_val _ _ (keysNodup_tenPairs s), hten]
      by_cases hv : s.league_year_max = "" <;> simp [hv]
    simp only [lookupLast]
    rw [hF]
    by_cases hv : s.league_year_max = "" <;> simp [hv, Storyline.getScalar]
  · have hten : lookupLast (tenPairs s) "only_in_season" = some s.only_in_season := by
      simp [tenPairs, lookupLast]
    have hF : lookupLast ((tenPairs s).filter (fun kv => kv.2 ≠ "")) "only_in_season"
        = if s.only_in_season = "" then none else some s.only_in_season := by
      rw [lookupLast_filter_val _ _ (keysNodup_tenPairs s), hten]
      by_cases hv : s.only_in_season = "" <;> simp [hv]
    simp only [lookupLast]
    rw [hF]
    by_cases hv : s.only_in_season = "" <;> simp [hv, Storyline.getScalar]
  · have hten : lookupLast (tenPairs s) "only_in_offseason" = some s.only_in_offseason := by
      simp [tenPairs, lookupLast]
    have hF : lookupLast ((tenPairs s).filter (fun kv => kv.2 ≠ "")) "only_in_offseason"
        = if s.only_in_offseason = "" then none else some s.only_in_offseason := by
      rw [lookupLast_filter_val _ _ (keysNodup_tenPairs s), hten]
      by_cases hv : s.only_in_offseason = "" <;> simp [hv]
    simp only [lookupLast]
    rw [hF]
    by_cases hv : s.only_in_offseason = "" <;> simp [hv, Storyline.getScalar]
  · have hten : lookupLast (tenPairs s) "only_in_spring" = some s.only_in_spring := by
      simp [tenPairs, lookupLast]
    have hF : lookupLast ((tenPairs s).filter (fun kv => kv.2 ≠ "")) "only_in_spring"
        = if s.only_in_spring = "" then none else some s.only_in_spring := by
      rw [lookupLast_filter_val _ _ (keysNodup_tenPairs s), hten]
      by_cases hv : s.only_in_spring = "" <;> simp [hv]
    simp only [lookupLast]
    rw [hF]
    by_cases hv : s.only_in_spring = "" <;> simp [hv, Storyline.getScalar]
  · have hten : lookupLast (tenPairs s) "is_minor_league" = some s.is_minor_league := by
      simp [tenPairs, lookupLast]
    have hF : lookupLast ((tenPairs s).filter (fun kv => kv.2 ≠ "")) "is_minor_league"
        = if s.is_minor_league = "" then none else some s.is_minor_league := by
      rw [lookupLast_filter_val _ _ (keysNodup_tenPairs s), hten]
      by_cases hv : s.is_minor_league = "" <;> simp [hv]
    simp only [lookupLast]
    rw [hF]
    by_cases hv : s.is_minor_league = "" <;> simp [hv, Storyline.getScalar]
  · have hten : lookupLast (tenPairs s) "storyline_happens_only_once" = some s.storyline_happens_only_once := by
      simp [tenPairs, lookupLast]
    have hF : lookupLast ((tenPairs s).filter (fun kv => kv.2 ≠ "")) "storyline_happens_only_once"
        = if s.storyline_happens_only_once = "" then none else some s.storyline_happens_only_once := by
      rw [lookupLast_filter_val _ _ (keysNodup_tenPairs s), hten]
      by_cases hv : s.storyline_happens_only_once = "" <;> simp [hv]
    simp only [lookupLast]
    rw [hF]
    by_cases hv : s.storyline_happens_only_once = "" <;> simp [hv, Storyline.getScalar]
  · have hten : lookupLast (tenPairs s) "min_usage_interval_days" = some s.min_usage_interval_days := by
      simp [tenPairs, lookupLast]
    have hF : lookupLast ((tenPairs s).filter (fun kv => kv.2 ≠ "")) "min_usage_interval_days"
        = if s.min_usage_interval_days = "" then none else some s.min_usage_interval_days := by
      rw [lookupLast_filter_val _ _ (keysNodup_tenPairs s), hten]
      by_cases hv : s.min_usage_interval_days = "" <;> simp [hv]
    simp only [lookupLast]
    rw [hF]
    by_cases hv : s.min_usage_interval_days = "" <;> simp [hv, Storyline.getScalar]
  · have hten : lookupLast (tenPairs s) "trigger_events" = some s.trigger_events := by
      simp [tenPairs, lookupLast]
    have hF : lookupLast ((tenPairs s).filter (fun kv => kv.2 ≠ "")) "trigger_events"
        = if s.trigger_events = "" then none else some s.trigger_events := by
      rw [lookupLast_filter_val _ _ (keysNodup_tenPairs s), hten]
      by_cases hv : s.trigger_events = "" <;> simp [hv]
    simp only [lookupLast]
    rw [hF]
    by_cases hv : s.trigger_events = "" <;> simp [hv, Storyline.getScalar]

theorem serializeArticle_attrib (a : Article) (h : Article.WF a) :
    (serializeArticle a).attrib
      = ("id", a.id) :: a.modifiers.filter (fun kv => kv.2 ≠ "") := by
  have hnodup : (keys [("id", a.id)] ++ keys a.modifiers).Nodup := by
    exact List.nodup_cons.mpr ⟨h.2, h.1⟩
  have h2 := foldl_dictSet_filter a.modifiers [("id", a.id)] hnodup
  simpa [serializeArticle] using h2

theorem roundtrip_article (a : Article) (h : Article.WF a) :
    parseArticle (serializeArticle a)
      = { a with modifiers := a.modifiers.filter (fun kv => kv.2 ≠ "") } := by
  obtain ⟨hnodup, hid⟩ := h
  have hattrib := serializeArticle_attrib a ⟨hnodup, hid⟩
  have hidc : (alookup (serializeArticle a).attrib "id").getD "" = a.id := by
    rw [hattrib]
    simp [alookup]
  have hmod : ((serializeArticle a).attrib).foldl
      (fun m kv => if kv.1 = "id" then m else dictSet m kv.1 kv.2) []
      = a.modifiers.filter (fun kv => kv.2 ≠ "") := by
    rw [hattrib, List.foldl_cons, if_pos rfl]
    have hkeys : ∀ kv ∈ a.modifiers.filter (fun kv => kv.2 ≠ ""), kv.1 ≠ "id" := by
      intro kv hkv hc
      apply hid
      rw [← hc]
      exact List.mem_map.mpr ⟨kv, (List.filter_sublist a.modifiers).mem hkv, rfl⟩
    rw [foldl_skipId_eq_dictOf _ _ hkeys]
    exact dictOf_self _ (keysNodup_filter _ a.modifiers hnodup)
  have hsubj : (match (serializeArticle a).find "SUBJECT" with
      | some c => c.text.getD ""
      | none => "") = a.subject := by
    by_cases hs : a.subject = "" <;> by_cases ht : a.text = "" <;>
      by_cases hi : a.injury_description = "" <;>
      simp [serializeArticle, XmlElem.find, List.find?, hs, ht, hi]
  have htext : (match (serializeArticle a).find "TEXT" with
      | some c => c.text.getD ""
      | none => "") = a.text := by
    by_cases hs : a.subject = "" <;> by_cases ht : a.text = "" <;>
      by_cases hi : a.injury_description = "" <;>
      simp [serializeArticle, XmlElem.find, List.find?, hs, ht, hi]
  have hinj : (match (serializeArticle a).find "INJURY_DESCRIPTION" with
      | some c => c.text.getD ""
      | none => "") = a.injury_description := by
    by_cases hs : a.subject = "" <;> by_cases ht : a.text = "" <;>
      by_cases hi : a.injury_description = "" <;>
      simp [serializeArticle, XmlElem.find, List.find?, hs, ht, hi]
  show Article.mk _ _ _ _ _ = Article.mk _ _ _ _ _
  rw [Article.mk.injEq]
  exact ⟨hidc, hsubj, htext, hinj, hmod⟩

/-- Projecting the parsed record onto its participant list (definitional). -/
theorem parse_required_data_eq (e : XmlElem) :
    (parse_storyline_element e).required_data
      = match e.find "REQUIRED_DATA" with
        | some r => (r.findall "DATA_OBJECT").map parseParticipant
        | none => [] := rfl

/-- Projecting the parsed record onto its article list (definitional). -/
theorem parse_articles_eq (e : XmlElem) :
    (parse_storyline_element e).articles
      = match e.find "ARTICLES" with
        | some ae => (ae.findall "ARTICLE").map parseArticle
        | none => [] := rfl

/-- Projecting the parsed record onto its extra attributes (definitional). -/
theorem parse_extra_eq (e : XmlElem) :
    (parse_storyline_element e).extra
      = (e.attrib.foldl (fun s kv => s.setField kv.1 kv.2) emptyStoryline).extra := rfl

theorem roundtrip_extra (s : Storyline) :
    (parse_storyline_element (serializeStoryline s)).extra = [] := by
  rw [parse_extra_eq, extra_foldl]
  have hnil : ((serializeStoryline s).attrib).filter (fun kv => kv.1 ∉ elevenNames) = [] := by
    rw [List.filter_eq_nil_iff]
    intro kv hkv
    simp [serialized_attrib_keys s kv hkv]
  rw [hnil]
  rfl

theorem find_required_data (s : Storyline) (h : s.required_data ≠ []) :
    (serializeStoryline s).find "REQUIRED_DATA"
      = some { tag := "REQUIRED_DATA", attrib := [],
               children := s.required_data.map serializeParticipant, text := none } := by
  by_cases harts : s.articles = [] <;>
    simp [serializeStoryline, XmlElem.find, List.find?, h, harts]

theorem find_required_data_none (s : Storyline) (h : s.required_data = []) :
    (serializeStoryline s).find "REQUIRED_DATA" = none := by
  by_cases harts : s.articles = [] <;>
    simp [serializeStoryline, XmlElem.find, List.find?, h, harts]

theorem find_articles (s : Storyline) (h : s.articles ≠ []) :
    (serializeStoryline s).find "ARTICLES"
      = some { tag := "ARTICLES", attrib := [],
               children := s.articles.map serializeArticle, text := none } := by
  by_cases hrd : s.required_data = [] <;>
    simp [serializeStoryline, XmlElem.find, List.find?, h, hrd]

theorem find_articles_none (s : Storyline) (h : s.articles = []) :
    (serializeStoryline s).find "ARTICLES" = none := by
  by_cases hrd : s.required_data = [] <;>
    simp [serializeStoryline, XmlElem.find, List.find?, h, hrd]

theorem roundtrip_required_data (s : Storyline)
    (h : ∀ d ∈ s.required_data, KeysNodup d) :
    (parse_storyline_element (serializeStoryline s)).required_data
      = s.required_data.map (fun d => d.filter (fun kv => kv.2 ≠ "")) := by
  rw [parse_required_data_eq]
  by_cases hrd : s.required_data = []
  · rw [find_required_data_none s hrd, hrd]
    rfl
  · rw [find_required_data s hrd]
    have hall : ({ tag := "REQUIRED_DATA", attrib := [],
                   children := s.required_data.map serializeParticipant,
                   text := none } : XmlElem).findall "DATA_OBJECT"
        = s.required_data.map serializeParticipant := by
      simp only [XmlElem.findall]
      rw [List.filter_eq_self.mpr]
      intro e he
      rcases List.mem_map.mp he with ⟨d, _, rfl⟩
      rfl
    show ((({ tag := "REQUIRED_DATA", attrib := [],
              children := s.required_data.map serializeParticipant,
              text := none } : XmlElem).findall "DATA_OBJECT").map parseParticipant) = _
    rw [hall, List.map_map]
    apply List.map_congr_left
    intro d hd
    exact roundtrip_participant d (h d hd)

theorem roundtrip_articles (s : Storyline) (h : ∀ a ∈ s.articles, a.WF) :
    (parse_storyline_element (serializeStoryline s)).articles
      = s.articles.map (fun a =>
          { a with modifiers := a.modifiers.filter (fun kv => kv.2 ≠ "") }) := by
  rw [parse_articles_eq]
  by_cases harts : s.articles = []
  · rw [find_articles_none s harts, harts]
    rfl
  · rw [find_articles s harts]
    have hall : ({ tag := "ARTICLES", attrib := [],
                   children := s.articles.map serializeArticle,
                   text := none } : XmlElem).findall "ARTICLE"
        = s.articles.map serializeArticle := by
      simp only [XmlElem.findall]
      rw [List.filter_eq_self.mpr]
      intro e he
      rcases List.mem_map.mp he with ⟨a, _, rfl⟩
      rfl
    show ((({ tag := "ARTICLES", attrib := [],
              children := s.articles.map serializeArticle,
              text := none } : XmlElem).findall "ARTICLE").map parseArticle) = _
    rw [hall, List.map_map]
    apply List.map_congr_left
    intro a ha
    exact roundtrip_article a (h a ha)

theorem getScalar_normalize (s : Storyline) (k : String) :
    (normalizeStoryline s).getScalar k = s.getScalar k := by
  simp [normalizeStoryline, Storyline.getScalar]

theorem storyline_eq_of_parts (a b : Storyline)
    (hs : ∀ k ∈ elevenNames, a.getScalar k = b.getScalar k)
    (he : a.extra = b.extra)
    (hr : a.required_data = b.required_data)
    (ha : a.articles = b.articles) : a = b := by
  obtain ⟨a1, a2, a3, a4, a5, a6, a7, a8, a9, a10, a11, a12, a13, a14⟩ := a
  obtain ⟨b1, b2, b3, b4, b5, b6, b7, b8, b9, b10, b11, b12, b13, b14⟩ := b
  have h1 := hs "id" (by decide)
  have h2 := hs "random_frequency" (by decide)
  have h3 := hs "league_year_min" (by decide)
  have h4 := hs "league_year_max" (by decide)
  have h5 := hs "only_in_season" (by decide)
  have h6 := hs "only_in_offseason" (by decide)
  have h7 := hs "only_in_spring" (by decide)
  have h8 := hs "is_minor_league" (by decide)
  have h9 := hs "storyline_happens_only_once" (by decide)
  have h10 := hs "min_usage_interval_days" (by decide)
  have h11 := hs "trigger_events" (by decide)
  simp [Storyline.getScalar] at h1 h2 h3 h4 h5 h6 h7 h8 h9 h10 h11
  simp_all

/-- One round trip through the serializer and the parser normalizes a record:
the eleven scalar fields are preserved, `extra` attributes are dropped, and
empty-valued participant / modifier entries disappear. -/
theorem roundtrip_storyline (s : Storyline) (h : Storyline.WF s) :
    parse_storyline_element (serializeStoryline s) = normalizeStoryline s := by
  obtain ⟨hrd, harts⟩ := h
  apply storyline_eq_of_parts
  · intro k hk
    rw [roundtrip_scalar s k hk, getScalar_normalize]
  · rw [roundtrip_extra]
    simp [normalizeStoryline]
  · rw [roundtrip_required_data s hrd]
    simp [normalizeStoryline]
  · rw [roundtrip_articles s harts]
    simp [normalizeStoryline]

/-- Parsing the serializer's output yields the sorted, normalized collection
(the Except component reports success). -/
theorem parse_create (prev : List Storyline) (v : String) (C : List Storyline)
    (h : ∀ s ∈ C, s.WF) :
    parse_xml_file prev (create_xml_file v C)
      = (sortById (C.map normalizeStoryline), Except.ok ()) := by
  have hfind : (create_xml_file v C).find "STORYLINES"
      = some { tag := "STORYLINES", attrib := [],
               children := C.map serializeStoryline, text := none } := by
    simp [create_xml_file, XmlElem.find, List.find?]
  simp only [parse_xml_file, hfind]
  have hall : ({ tag := "STORYLINES", attrib := [],
                 children := C.map serializeStoryline, text := none } : XmlElem).findall "STORYLINE"
      = C.map serializeStoryline := by
    simp only [XmlElem.findall]
    rw [List.filter_eq_self.mpr]
    intro e he
    rcases List.mem_map.mp he with ⟨s, _, rfl⟩
    rfl
  rw [hall, List.map_map]
  have hmaps : C.map (parse_storyline_element ∘ serializeStoryline)
      = C.map normalizeStoryline := by
    apply List.map_congr_left
    intro s hsm
    exact roundtrip_storyline s (h s hsm)
  rw [List.nil_append, hmaps]

/-! ### Machinery: sortedness of the parse result. -/

instance : IsTrans Storyline idLe :=
  ⟨fun _ _ _ h1 h2 => charsLe_trans _ _ _ h1 h2⟩

instance : IsTotal Storyline idLe :=
  ⟨fun a b => charsLe_total a.id.data b.id.data⟩

theorem sortById_sorted (l : List Storyline) : List.Sorted idLe (sortById l) :=
  List.sorted_insertionSort idLe l

theorem parse_sorted (prev : List Storyline) (root : XmlElem) :
    List.Sorted idLe (parse_xml_file prev root).1 := by
  unfold parse_xml_file
  cases hfind : root.find "STORYLINES" with
  | none => exact List.sorted_nil
  | some se => exact sortById_sorted _

/-! ### Machinery: the tag-renumber operation on unmatched text. -/

theorem tagSubAux_no_match (n : List Char) (cs : List Char)
    (h : hasTagAux cs = false) : ∀ fuel, tagSubAux n fuel cs = cs := by
  induction cs with
  | nil => intro fuel; cases fuel <;> rfl
  | cons c cs ih =>
    intro fuel
    have h0 : ((tryMatchTag (c :: cs)).isSome || hasTagAux cs) = false := h
    rw [Bool.or_eq_false_iff] at h0
    have h1 : tryMatchTag (c :: cs) = none := by
      cases htm : tryMatchTag (c :: cs)
      · rfl
      · rw [htm] at h0; simp at h0
    cases fuel with
    | zero => rfl
    | succ fuel => simp [tagSubAux, h1, ih h0.2 fuel]

theorem tagSub_no_match (n s : String) (h : hasTag s = false) : tagSub n s = s := by
  unfold tagSub
  rw [tagSubAux_no_match n.data s.data h s.data.length]

theorem update_tag_no_match (n sel : String) (hne : sel ≠ "") (h : hasTag sel = false) :
    update_tag_numbers (some sel) n = (some sel, TagUpdateResult.noMatch) := by
  simp [update_tag_numbers, hne, tagSub_no_match n sel h]

/-! ### Machinery: the main-actor exclusivity operation. -/

theorem alookup_filter_not_main (d : List (String × String)) :
    alookup (d.filter (fun kv => kv.1 ≠ "main_actor")) "main_actor" = none := by
  induction d with
  | nil => rfl
  | cons kv rest ih =>
    by_cases hk : kv.1 = "main_actor"
    · rw [List.filter_cons, if_neg (by simp [hk])]
      exact ih
    · rw [List.filter_cons, if_pos (by simp [hk])]
      simp only [alookup, if_neg hk]
      exact ih

theorem set_main_actor_length (l : List (List (String × String))) (i : Nat) :
    (set_main_actor l i).length = l.length := by
  simp only [set_main_actor]
  cases hget : (l.map (fun d => d.filter (fun kv => kv.1 ≠ "main_actor"))).get? i with
  | none => simp
  | some d => simp

/-! ### Machinery: the attribute-catalog union operation. -/

theorem sortedDedup_nodup (l : List String) :
    ((l.dedup).insertionSort strLeP).Nodup :=
  (List.perm_insertionSort strLeP l.dedup).symm.nodup (List.nodup_dedup l)

theorem sortedDedup_sorted (l : List String) :
    List.Sorted strLeP ((l.dedup).insertionSort strLeP) :=
  List.sorted_insertionSort strLeP l.dedup

theorem sortedDedup_mem (l : List String) (x : String) :
    x ∈ (l.dedup).insertionSort strLeP ↔ x ∈ l := by
  rw [(List.perm_insertionSort strLeP l.dedup).mem_iff, List.mem_dedup]

theorem sortedDedup_congr (l1 l2 : List String) (h : ∀ x, x ∈ l1 ↔ x ∈ l2) :
    (l1.dedup).insertionSort strLeP = (l2.dedup).insertionSort strLeP := by
  apply List.eq_of_perm_of_sorted ?hperm (sortedDedup_sorted l1) (sortedDedup_sorted l2)
  rw [List.perm_ext_iff_of_nodup (sortedDedup_nodup l1) (sortedDedup_nodup l2)]
  intro x
  rw [sortedDedup_mem, sortedDedup_mem]
  exact h x

/-! ### Machinery: serializer key sets for the empty-omission rules. -/

theorem tenPairs_val (s : Storyline) (kv : String × String) (h : kv ∈ tenPairs s) :
    kv.2 = s.getScalar kv.1 := by
  simp only [tenPairs, List.mem_cons, List.not_mem_nil, or_false] at h
  rcases h with rfl | rfl | rfl | rfl | rfl | rfl | rfl | rfl | rfl | rfl <;>
    simp [Storyline.getScalar]

theorem serialized_attrib_no_empty_ten (s : Storyline) (k : String)
    (hk : k ∈ tenNames) (hemp : s.getScalar k = "") :
    k ∉ keys ((serializeStoryline s).attrib) := by
  intro hmem
  have hmem2 : k ∈ "id" :: keys ((tenPairs s).filter (fun kv => kv.2 ≠ "")) := hmem
  rcases List.mem_cons.mp hmem2 with rfl | hk2
  · exact absurd hk (by decide)
  · rcases List.mem_map.mp hk2 with ⟨kv, hkv, rfl⟩
    have hfilter := List.mem_filter.mp hkv
    have hval := tenPairs_val s kv hfilter.1
    rw [hval, hemp] at hfilter
    simp at hfilter

theorem parse_extra_lookup (e : XmlElem) (k v : String) (hk : k ∉ elevenNames)
    (hv : lookupLast e.attrib k = some v) :
    alookup (parse_storyline_element e).extra k = some v := by
  rw [parse_extra_eq, extra_foldl, alookup_dictOf]
  have hfk : lookupLast (e.attrib.filter (fun kv => kv.1 ∉ elevenNames)) k
      = lookupLast e.attrib k := by
    apply lookupLast_filter_key
    intro kv hc
    rw [hc]
    simp [hk]
  rw [hfk, hv]

theorem keys_dictSet (d : List (String × String)) (k v : String) :
    keys (dictSet d k v) = if k ∈ keys d then keys d else keys d ++ [k] := by
  induction d with
  | nil => simp [dictSet, keys]
  | cons kv rest ih =>
    by_cases h1 : kv.1 = k
    · rw [show dictSet (kv :: rest) k v = (k, v) :: rest from by simp [dictSet, h1]]
      rw [keys_cons, keys_cons, if_pos (by rw [h1]; exact List.mem_cons_self _ _), h1]
    · have hne : ¬ k = kv.1 := fun hc => h1 hc.symm
      rw [show dictSet (kv :: rest) k v = kv :: dictSet rest k v from by simp [dictSet, h1]]
      by_cases h2 : k ∈ keys rest
      · rw [keys_cons, ih, if_pos h2, keys_cons,
          if_pos (List.mem_cons_of_mem _ h2)]
      · rw [keys_cons, ih, if_neg h2, keys_cons, if_neg (by simp [hne, h2])]
        rfl

theorem keysNodup_dictSet (d : List (String × String)) (k v : String)
    (h : KeysNodup d) : KeysNodup (dictSet d k v) := by
  unfold KeysNodup
  rw [keys_dictSet]
  by_cases hm : k ∈ keys d
  · rw [if_pos hm]; exact h
  · rw [if_neg hm]
    simp [List.nodup_append, h, hm]
    exact h

theorem keysNodup_dictOf (l acc : List (String × String)) (h : KeysNodup acc) :
    KeysNodup (dictOf acc l) := by
  induction l generalizing acc with
  | nil => exact h
  | cons kv rest ih => exact ih _ (keysNodup_dictSet _ _ _ h)

theorem skipId_no_id (l acc : List (String × String)) (h : "id" ∉ keys acc) :
    "id" ∉ keys (l.foldl (fun m kv => if kv.1 = "id" then m else dictSet m kv.1 kv.2) acc) := by
  induction l generalizing acc with
  | nil => exact h
  | cons kv rest ih =>
    rw [List.foldl_cons]
    by_cases hk : kv.1 = "id"
    · rw [if_pos hk]; exact ih acc h
    · rw [if_neg hk]
      apply ih
      rw [keys_dictSet]
      by_cases hm : kv.1 ∈ keys acc
      · rw [if_pos hm]; exact h
      · rw [if_neg hm]
        intro hc
        rcases List.mem_append.mp hc with hc1 | hc2
        · exact h hc1
        · rw [List.mem_singleton] at hc2; exact hk hc2.symm

theorem keysNodup_foldl_skipId (l acc : List (String × String)) (h : KeysNodup acc) :
    KeysNodup (l.foldl (fun m kv => if kv.1 = "id" then m else dictSet m kv.1 kv.2) acc) := by
  induction l generalizing acc with
  | nil => exact h
  | cons kv rest ih =>
    rw [List.foldl_cons]
    by_cases hk : kv.1 = "id"
    · rw [if_pos hk]; exact ih acc h
    · rw [if_neg hk]; exact ih _ (keysNodup_dictSet _ _ _ h)

/-- Every record the parser produces is key-unique (its participant and
modifier dicts are genuine dicts, and `id` never lands among the
modifiers). -/
theorem parseArticle_WF (e : XmlElem) : (parseArticle e).WF := by
  constructor
  · exact keysNodup_foldl_skipId e.attrib [] (by simp [KeysNodup, keys])
  · exact skipId_no_id e.attrib [] (by simp [keys])

theorem parseParticipant_nodup (e : XmlElem) : KeysNodup (parseParticipant e) :=
  keysNodup_dictOf e.attrib [] (by simp [KeysNodup, keys])

theorem parse_storyline_element_WF (e : XmlElem) :
    (parse_storyline_element e).WF := by
  constructor
  · rw [parse_required_data_eq]
    cases e.find "REQUIRED_DATA" with
    | none => intro d hd; simp at hd
    | some r =>
      intro d hd
      rcases List.mem_map.mp hd with ⟨el, _, rfl⟩
      exact parseParticipant_nodup el
  · rw [parse_articles_eq]
    cases e.find "ARTICLES" with
    | none => intro a ha; simp at ha
    | some ae =>
      intro a ha
      rcases List.mem_map.mp ha with ⟨el, _, rfl⟩
      exact parseArticle_WF el

theorem parse_xml_file_WF (prev : List Storyline) (root : XmlElem) :
    ∀ s ∈ (parse_xml_file prev root).1, s.WF := by
  unfold parse_xml_file
  cases hf : root.find "STORYLINES" with
  | none => intro s hs; simp at hs
  | some se =>
    intro s hs
    have hmem : s ∈ [] ++ (se.findall "STORYLINE").map parse_storyline_element :=
      (List.perm_insertionSort idLe _).mem_iff.mp hs
    rcases List.mem_map.mp (by simpa using hmem) with ⟨el, _, rfl⟩
    exact parse_storyline_element_WF el

/-! ### Concrete example data for the counterexamples and witnesses. -/

/-- A parsed document whose root has no STORYLINES container. -/
def docMissing : XmlElem :=
  { tag := "STORYLINE_DATABASE", attrib := [("fileversion", "v1")]
    children := [], text := none }

/-- A previously loaded record (for the failed-open scenarios). -/
def sampleStoryline : Storyline :=
  { emptyStoryline with id := "s1", random_frequency := "5" }

/-- A storyline element carrying the attribute `custom_attr`, which is not
among the eleven well-known names. -/
def stCustomElem : XmlElem :=
  { tag := "STORYLINE", attrib := [("id", "s1"), ("custom_attr", "x")]
    children := [], text := none }

/-- A well-formed document containing `stCustomElem`. -/
def docCustom : XmlElem :=
  { tag := "STORYLINE_DATABASE", attrib := [("fileversion", "v")]
    children :=
      [{ tag := "STORYLINES", attrib := [], children := [stCustomElem], text := none }]
    text := none }

/-- A well-formed document with storylines in id order b, a, c. -/
def docBac : XmlElem :=
  { tag := "STORYLINE_DATABASE", attrib := [("fileversion", "v")]
    children :=
      [{ tag := "STORYLINES", attrib := []
         children :=
           [{ tag := "STORYLINE", attrib := [("id", "b")], children := [], text := none },
            { tag := "STORYLINE", attrib := [("id", "a")], children := [], text := none },
            { tag := "STORYLINE", attrib := [("id", "c")], children := [], text := none }]
         text := none }]
    text := none }

def sampleArticle : Article :=
  { id := "a1", subject := "Hello", text := "Body", injury_description := ""
    modifiers := [("mod_x", "2")] }

/-- A record with one participant and one article, key-unique throughout. -/
def sampleRich : Storyline :=
  { emptyStoryline with
    id := "s1"
    random_frequency := "10"
    required_data := [[("type", "PLAYER"), ("main_actor", "1")]]
    articles := [sampleArticle] }

/-- A record with a participant whose `type` is empty and a participant whose
`main_actor` value is the non-flag string "0". -/
def stTypeEmpty : Storyline :=
  { emptyStoryline with
    id := "s2"
    required_data := [[("type", "")], [("type", "PLAYER"), ("main_actor", "0")]] }

/-- A record with one ordinary participant (an empty-valued entry included). -/
def stParticipantGood : Storyline :=
  { emptyStoryline with
    id := "s3"
    required_data := [[("type", "PLAYER"), ("note", "")]] }

/-- Two participants, the second currently flagged as main actor. -/
def mainActorList : List (List (String × String)) :=
  [[("type", "A")], [("type", "B"), ("main_actor", "1")]]

def catA : AttributeCatalog :=
  { common := ["b", "a"], by_type := [("PLAYER", ["c", "a"])] }

def catB : AttributeCatalog :=
  { common := ["a", "c"], by_type := [("PLAYER", ["b", "b"])] }

/-! ### The claims. -/

/-- Claim C1, as stated, is false: a collection obtained by parsing a
well-formed document can hold an attribute outside the eleven well-known
names (here `custom_attr = "x"`, populated), and serializing and re-parsing
drops it — the round-tripped record is not equal on that populated field. -/
theorem claim_C1_counterexample :
    (parse_xml_file [] docCustom).1.map (fun s => alookup s.extra "custom_attr")
      = [some "x"]
    ∧ (parse_xml_file []
        (create_xml_file "v" (parse_xml_file [] docCustom).1)).1.map
          (fun s => alookup s.extra "custom_attr") = [none] := by
  constructor
  · rfl
  · rfl

/-- Claim C1 (amended): serializing any collection of key-unique records and
re-parsing the output yields exactly the sorted, normalized collection —
each record keeps all eleven well-known scalar fields (empty ones come back
as `""`), keeps every non-empty participant and modifier entry and all
article text fields, while attributes outside the eleven are dropped and
empty-valued participant/modifier entries lose their keys. -/
theorem claim_C1_amended (prev : List Storyline) (v : String) (C : List Storyline)
    (hC : ∀ s ∈ C, s.WF) :
    parse_xml_file prev (create_xml_file v C)
      = (sortById (C.map normalizeStoryline), Except.ok ())
    ∧ (∀ s : Storyline,
        (∀ k ∈ elevenNames, (normalizeStoryline s).getScalar k = s.getScalar k)
        ∧ (normalizeStoryline s).extra = []
        ∧ (normalizeStoryline s).required_data
            = s.required_data.map (fun d => d.filter (fun kv => kv.2 ≠ ""))
        ∧ (normalizeStoryline s).articles
            = s.articles.map (fun a =>
                { a with modifiers := a.modifiers.filter (fun kv => kv.2 ≠ "") }))
    ∧ ∀ (p : List Storyline) (root : XmlElem), ∀ s ∈ (parse_xml_file p root).1, s.WF := by
  refine ⟨parse_create prev v C hC, ?_, parse_xml_file_WF⟩
  intro s
  exact ⟨fun k _ => getScalar_normalize s k, rfl, rfl, rfl⟩

/-- Claim C1's amended round trip at a concrete collection. -/
theorem claim_C1_witness :
    parse_xml_file [] (create_xml_file "v" [sampleRich])
      = (sortById ([sampleRich].map normalizeStoryline), Except.ok ()) :=
  (claim_C1_amended [] "v" [sampleRich] (by decide)).1

/-- Claim C2, as stated, is false: opening a document whose root has no
STORYLINES container does raise the schema error, but `parse_xml_file`
resets `self.storylines` to `[]` before the check, so the previously loaded
collection is clobbered rather than left unmodified. -/
theorem claim_C2_counterexample :
    parse_xml_file [sampleStoryline] docMissing
      = ([], Except.error "STORYLINES 태그를 찾을 수 없습니다.")
    ∧ [sampleStoryline] ≠ ([] : List Storyline) := by
  constructor
  · rfl
  · decide

/-- Claim C2 (amended): parsing a document whose root lacks the STORYLINES
container fails with the schema error, but the in-memory collection has
already been reset to empty, so whatever was loaded before is lost. -/
theorem claim_C2_amended (prev : List Storyline) (root : XmlElem)
    (h : root.find "STORYLINES" = none) :
    parse_xml_file prev root
      = ([], Except.error "STORYLINES 태그를 찾을 수 없습니다.") := by
  simp [parse_xml_file, h]

/-- Claim C2's amended behavior at a concrete failed open. -/
theorem claim_C2_witness :
    parse_xml_file [sampleStoryline] docMissing
      = ([], Except.error "STORYLINES 태그를 찾을 수 없습니다.") :=
  claim_C2_amended [sampleStoryline] docMissing rfl

/-- Claim C3, as stated, is false: a storyline element's unknown attribute
(`custom_attr`) does land in the parsed record verbatim, but the serializer
emits only `id` and the ten listed attributes, so the attribute is not
re-emitted on the output storyline element. -/
theorem claim_C3_counterexample :
    alookup (parse_storyline_element stCustomElem).extra "custom_attr" = some "x"
    ∧ "custom_attr" ∉ keys ((serializeStoryline (parse_storyline_element stCustomElem)).attrib) := by
  constructor
  · rfl
  · decide

/-- Claim C3 (amended): every attribute of a storyline element outside the
eleven well-known names appears verbatim in the parsed record's extra
attribute set, but serialization emits only attributes among the eleven
well-known names, so unknown attributes are never re-emitted. -/
theorem claim_C3_amended :
    (∀ (e : XmlElem) (k v : String), k ∉ elevenNames →
      lookupLast e.attrib k = some v →
      alookup (parse_storyline_element e).extra k = some v)
    ∧ ∀ (s : Storyline) (kv : String × String),
        kv ∈ (serializeStoryline s).attrib → kv.1 ∈ elevenNames :=
  ⟨parse_extra_lookup, serialized_attrib_keys⟩

/-- Claim C3's amended parse half at the concrete element. -/
theorem claim_C3_witness :
    alookup (parse_storyline_element stCustomElem).extra "custom_attr" = some "x" :=
  claim_C3_amended.1 stCustomElem "custom_attr" "x" (by decide) (by decide)

/-- Claim C4, as stated, is false for `id`: the eleven well-known scalar
attributes include `id`, and serializing a record whose `id` is the empty
string still emits the `id` attribute (with empty value) on the output
element, rather than leaving it absent. -/
theorem claim_C4_counterexample :
    "id" ∈ elevenNames
    ∧ emptyStoryline.getScalar "id" = ""
    ∧ "id" ∈ keys ((serializeStoryline emptyStoryline).attrib)
    ∧ alookup ((serializeStoryline emptyStoryline).attrib) "id" = some "" := by
  refine ⟨by decide, rfl, by decide, rfl⟩

/-- Claim C4 (amended): for each of the ten non-id well-known scalar
attributes, an empty value yields an output element without that attribute,
and re-parsing restores the field to `""`; `id`, by contrast, is always
emitted, empty or not. -/
theorem claim_C4_amended (s : Storyline) (k : String) (hk : k ∈ tenNames)
    (hemp : s.getScalar k = "") :
    k ∉ keys ((serializeStoryline s).attrib)
    ∧ (parse_storyline_element (serializeStoryline s)).getScalar k = ""
    ∧ alookup ((serializeStoryline s).attrib) "id" = some s.id := by
  refine ⟨serialized_attrib_no_empty_ten s k hk hemp, ?_, rfl⟩
  rw [roundtrip_scalar s k (tenNames_subset_eleven k hk), hemp]

/-- Claim C4's amended empty-omission at a concrete record and attribute. -/
theorem claim_C4_witness :
    "league_year_min" ∉ keys ((serializeStoryline sampleRich).attrib)
    ∧ (parse_storyline_element (serializeStoryline sampleRich)).getScalar "trigger_events" = "" := by
  constructor
  · exact (claim_C4_amended sampleRich "league_year_min" (by decide) (by decide)).1
  · exact (claim_C4_amended sampleRich "trigger_events" (by decide) (by decide)).2.1

/-- Claim C5, as stated, is false: the serializer writes each participant
entry only when its value is non-empty, with no special case for `type` or
`main_actor` — a participant whose `type` is `""` is emitted with no `type`
attribute at all, and a participant with `main_actor = "0"` (flag false)
still gets a `main_actor` attribute. -/
theorem claim_C5_counterexample :
    ((serializeStoryline stTypeEmpty).find "REQUIRED_DATA").map
        (fun e => e.children.map XmlElem.attrib)
      = some [[], [("type", "PLAYER"), ("main_actor", "0")]]
    ∧ isMainActor [("type", "PLAYER"), ("main_actor", "0")] = false := by
  constructor
  · rfl
  · rfl

/-- Claim C5 (amended): when the participant sequence is non-empty, the
emitted REQUIRED_DATA children carry exactly the participant entries with
non-empty values — `type` and `main_actor` included, with no special
casing. -/
theorem claim_C5_amended (s : Storyline)
    (h : ∀ d ∈ s.required_data, KeysNodup d) (hne : s.required_data ≠ []) :
    ((serializeStoryline s).find "REQUIRED_DATA").map
        (fun e => e.children.map XmlElem.attrib)
      = some (s.required_data.map (fun d => d.filter (fun kv => kv.2 ≠ ""))) := by
  rw [find_required_data s hne]
  show some ((s.required_data.map serializeParticipant).map XmlElem.attrib) = _
  rw [List.map_map]
  refine congrArg some (List.map_congr_left ?_)
  intro d hd
  exact serializeParticipant_attrib d (h d hd)

/-- Claim C5's amended emission rule at a concrete participant list. -/
theorem claim_C5_witness :
    ((serializeStoryline stParticipantGood).find "REQUIRED_DATA").map
        (fun e => e.children.map XmlElem.attrib)
      = some [[("type", "PLAYER")]] :=
  claim_C5_amended stParticipantGood (by decide) (by decide)

/-- Claim C6: parse always returns the storylines sorted by `id` ascending
under lexicographic (code-point) string comparison, and the concrete document
with ids b, a, c parses to the order a, b, c. -/
theorem claim_C6 :
    (∀ (prev : List Storyline) (root : XmlElem),
      List.Sorted idLe (parse_xml_file prev root).1)
    ∧ (parse_xml_file [] docBac).1.map Storyline.id = ["a", "b", "c"]
    ∧ (parse_xml_file [] docBac).2 = Except.ok () := by
  refine ⟨parse_sorted, ?_, rfl⟩
  decide

/-- Claim C7: renumbering the selection `"[%personlink#1 f l] scored"` to 3
yields `"[%personlink#3 f l] scored"` and reports success; a non-empty
selection containing no bracket-tag pattern is left untouched and the
operation reports a no-match result rather than an error. -/
theorem claim_C7 :
    update_tag_numbers (some "[%personlink#1 f l] scored") "3"
      = (some "[%personlink#3 f l] scored", TagUpdateResult.replaced)
    ∧ ∀ (n sel : String), sel ≠ "" → hasTag sel = false →
        update_tag_numbers (some sel) n = (some sel, TagUpdateResult.noMatch) := by
  constructor
  · decide
  · intro n sel hne h
    exact update_tag_no_match n sel hne h

/-- Claim C7's no-match branch at a concrete selection. -/
theorem claim_C7_witness :
    update_tag_numbers (some "scored a run") "3"
      = (some "scored a run", TagUpdateResult.noMatch) :=
  claim_C7.2 "3" "scored a run" (by decide) (by decide)

/-- Claim C8: deleting the sole remaining article is rejected with the
warning dialog, the deletion is not performed, and the article count
remains 1 — whatever the selected index and the (never shown) confirmation
answer. -/
theorem claim_C8 (articles : List Article) (i : Nat) (confirm : Bool)
    (h : articles.length = 1) :
    delete_current_article articles i confirm = (articles, DeleteResult.warned)
    ∧ (delete_current_article articles i confirm).1.length = 1 := by
  have h2 : ¬ articles.length > 1 := by omega
  constructor
  · simp [delete_current_article, h2]
  · simp [delete_current_article, h2, h]

/-- Claim C8 at a one-article storyline. -/
theorem claim_C8_witness :
    delete_current_article [sampleArticle] 0 true
      = ([sampleArticle], DeleteResult.warned)
    ∧ (delete_current_article [sampleArticle] 0 true).1.length = 1 :=
  claim_C8 [sampleArticle] 0 true rfl

/-- Claim C9: after `set_main_actor` is invoked for index i, the list keeps
its length, requirement i carries the main-actor flag, and every other
requirement's flag is cleared (the key is deleted), even if it was set
before — so never two requirements are flagged at once. -/
theorem claim_C9 (l : List (List (String × String))) (i : Nat) (h : i < l.length) :
    (set_main_actor l i).length = l.length
    ∧ ∀ j, ∀ hj : j < (set_main_actor l i).length,
        (isMainActor ((set_main_actor l i).get ⟨j, hj⟩) = true ↔ j = i) := by
  have hlen : i < (l.map (fun d => d.filter (fun kv => kv.1 ≠ "main_actor"))).length := by
    simpa using h
  have hget : (l.map (fun d => d.filter (fun kv => kv.1 ≠ "main_actor"))).get? i
      = some ((l.map (fun d => d.filter (fun kv => kv.1 ≠ "main_actor"))).get ⟨i, hlen⟩) :=
    List.get?_eq_get hlen
  have hrw : set_main_actor l i
      = (l.map (fun d => d.filter (fun kv => kv.1 ≠ "main_actor"))).set i
          (dictSet ((l.map (fun d => d.filter (fun kv => kv.1 ≠ "main_actor"))).get ⟨i, hlen⟩)
            "main_actor" "1") := by
    simp only [set_main_actor]
    rw [hget]
  refine ⟨set_main_actor_length l i, ?_⟩
  intro j hj
  have hjl : j < l.length := by
    rw [← set_main_actor_length l i]
    exact hj
  revert hj
  rw [hrw]
  intro hj
  rw [List.get_eq_getElem, List.getElem_set]
  by_cases hji : i = j
  · rw [if_pos hji]
    simp [isMainActor, alookup_dictSet, hji]
  · rw [if_neg hji]
    have hmaplen : j < (l.map (fun d => d.filter (fun kv => kv.1 ≠ "main_actor"))).length := by
      simpa using hjl
    rw [List.getElem_map]
    have hnone : alookup ((l[j]).filter (fun kv => kv.1 ≠ "main_actor")) "main_actor"
        = none := alookup_filter_not_main _
    have hne : ¬ j = i := fun hc => hji hc.symm
    show isMainActor ((l[j]).filter (fun kv => kv.1 ≠ "main_actor")) = true ↔ j = i
    unfold isMainActor
    rw [hnone]
    simp [hne]

/-- Claim C9 at a concrete list where participant 1 held the flag and
participant 0 is selected. -/
theorem claim_C9_witness :
    isMainActor ((set_main_actor mainActorList 0).get ⟨0, by decide⟩) = true
    ∧ isMainActor ((set_main_actor mainActorList 0).get ⟨1, by decide⟩) = false := by
  constructor
  · exact ((claim_C9 mainActorList 0 (by decide)).2 0 (by decide)).mpr rfl
  · have h := (claim_C9 mainActorList 0 (by decide)).2 1 (by decide)
    cases hb : isMainActor ((set_main_actor mainActorList 0).get ⟨1, by decide⟩)
    · rfl
    · exact absurd (h.mp hb) (by decide)

/-- Claim C10: for every catalog and participant type, the returned
attribute list is duplicate-free, sorted ascending by lexicographic string
comparison, contains exactly the union of the common and the type-specific
attributes, and is determined by that membership alone — catalogs listing
the same attributes in any order yield the same list. -/
theorem claim_C10 (cat : AttributeCatalog) (t : String) :
    ((get_attributes_for_type cat t).Nodup
      ∧ List.Sorted strLeP (get_attributes_for_type cat t)
      ∧ ∀ x, x ∈ get_attributes_for_type cat t ↔
          x ∈ cat.common
            ∨ x ∈ ((cat.by_type.find? (fun kv => kv.1 == t)).map Prod.snd).getD [])
    ∧ ∀ cat2 : AttributeCatalog,
        (∀ x,
          x ∈ cat2.common ++ ((cat2.by_type.find? (fun kv => kv.1 == t)).map Prod.snd).getD []
            ↔ x ∈ cat.common ++ ((cat.by_type.find? (fun kv => kv.1 == t)).map Prod.snd).getD []) →
        get_attributes_for_type cat2 t = get_attributes_for_type cat t := by
  constructor
  · refine ⟨sortedDedup_nodup _, sortedDedup_sorted _, ?_⟩
    intro x
    rw [show get_attributes_for_type cat t
        = ((cat.common ++ ((cat.by_type.find? (fun kv => kv.1 == t)).map Prod.snd).getD []).dedup).insertionSort strLeP
      from rfl]
    rw [sortedDedup_mem, List.mem_append]
  · intro cat2 hmem
    exact sortedDedup_congr _ _ hmem

/-- Claim C10 at two concrete catalogs listing the same attributes in
different orders. -/
theorem claim_C10_witness :
    (get_attributes_for_type catA "PLAYER").Nodup
    ∧ get_attributes_for_type catB "PLAYER" = get_attributes_for_type catA "PLAYER" := by
  constructor
  · exact (claim_C10 catA "PLAYER").1.1
  · refine (claim_C10 catA "PLAYER").2 catB ?_
    intro x
    show x ∈ ["a", "c", "b", "b"] ↔ x ∈ ["b", "a", "c", "a"]
    simp only [List.mem_cons, List.not_mem_nil, or_false]
    constructor
    · intro hx
      rcases hx with rfl | rfl | rfl | rfl
      · right; left; rfl
      · right; right; left; rfl
      · left; rfl
      · left; rfl
    · intro hx
      rcases hx with rfl | rfl | rfl | rfl
      · right; right; left; rfl
      · left; rfl
      · right; left; rfl
      · left; rfl

end OOTP